import Mathlib

/-!
Shallow embedding of the gallery client (`static/js/main.js`) of the
photo-gallery repository, together with proofs about its pagination,
search filtering, sorting, month grouping, lightbox navigation,
slideshow and selection logic.

Modelling conventions:
* An `ImageRecord` is the client's image metadata object; its `timestamp`
  is modelled as the number (epoch milliseconds) that `new Date(...)`
  yields for the stored timestamp string, since the client only ever
  compares timestamps after converting them through `new Date`.
* Browser/locale dependent date rendering (`toLocaleDateString`) is a
  parameter (`Locale`), as the code's behaviour is parametric in it.
* The Alpine.js reactive object is the record `GalleryState`; DOM-only
  effects are dropped, except `showNotification` calls, which are
  returned as data where a claim is about them.
* `fetch('/api/images')` is modelled by a `FetchResult` argument.
-/

namespace Gallery

/-- One stored image, as the read API returns it and the client keeps it.
`caption` is `none` when the JSON field is absent; `timestamp` is the
epoch-milliseconds value `new Date(record.timestamp)` evaluates to. -/
structure ImageRecord where
  id : Nat
  full_url : String
  caption : Option String
  timestamp : Nat
deriving DecidableEq

/-- The browser's locale-dependent date formatting, a parameter of the
embedding: `localeDateString ts` is `new Date(ts).toLocaleDateString()`,
`monthYearKey ts` is `toLocaleDateString('en-US', {year:'numeric',
month:'long'})`, `monthLong ts` the month name alone, and `fullYear ts`
is `getFullYear()`. -/
structure Locale where
  localeDateString : Nat → String
  monthYearKey : Nat → String
  monthLong : Nat → String
  fullYear : Nat → Nat

/-- `s.toLowerCase()` (character-wise lowering). -/
def jsToLower (s : String) : String :=
  String.mk (s.data.map Char.toLower)

/-- Does the character list start with the pattern? Helper for `jsIncludes`. -/
def firstChars : List Char → List Char → Bool
  | _, [] => true
  | [], _ :: _ => false
  | a :: as, b :: bs => a == b && firstChars as bs

/-- Does the character list contain the pattern as a contiguous run? -/
def containsChars (pattern : List Char) : List Char → Bool
  | [] => firstChars [] pattern
  | c :: cs => firstChars (c :: cs) pattern || containsChars pattern cs

/-- `hay.includes(needle)`: substring containment. -/
def jsIncludes (hay needle : String) : Bool :=
  containsChars needle.data hay.data

/-- `s.trim()`: strip leading and trailing whitespace. -/
def jsTrim (s : String) : String :=
  String.mk (((s.data.dropWhile Char.isWhitespace).reverse.dropWhile
    Char.isWhitespace).reverse)

/-- The fixed page size, field `photosPerPage: 24` of the state object. -/
def photosPerPage : Nat := 24

/-- The auto-refresh polling interval (`setInterval(..., 30000)`). -/
def autoRefreshIntervalMs : Nat := 30000

/-- The slideshow advance interval (`setInterval(..., 3000)`). -/
def slideshowIntervalMs : Nat := 3000

/-- One month group of `groupedImages`: `{photos, count, monthName, year,
sortDate}` as built by `groupImagesByMonth`. -/
structure MonthGroup where
  photos : List ImageRecord
  count : Nat
  monthName : String
  year : Nat
  sortDate : Nat
deriving DecidableEq

/-- The client's reactive state object (lines 5–21 of `main.js`), without
the DOM-only and timer-handle fields (`slideshowInterval`).
`groupedImages` is the JS object as an association list in key insertion
order; `currentImage` is `none` for the initial `{}`. -/
structure GalleryState where
  loading : Bool := true
  images : List ImageRecord := []
  displayedImages : List ImageRecord := []
  groupedImages : List (String × MonthGroup) := []
  lightboxOpen : Bool := false
  currentImage : Option ImageRecord := none
  currentIndex : Nat := 0
  currentPage : Nat := 1
  totalPages : Nat := 1
  searchQuery : String := ""
  selectedPhotos : List ImageRecord := []
  selectionMode : Bool := false
  slideshowActive : Bool := false
  viewMode : String := "grouped"
deriving DecidableEq

/-- `formatDate(timestamp)`: empty for a falsy timestamp, otherwise the
calendar emoji plus the locale rendering. -/
def formatDate (loc : Locale) (timestamp : Nat) : String :=
  if timestamp = 0 then "" else "📅 " ++ loc.localeDateString timestamp

/-- The search predicate of `updatePagination` (lines 71–74): the caption
is truthy and contains the query case-insensitively, or the formatted
date does. -/
def matchesSearch (loc : Locale) (query : String) (img : ImageRecord) : Bool :=
  (match img.caption with
    | some c => c != "" && jsIncludes (jsToLower c) (jsToLower query)
    | none => false)
  || jsIncludes (jsToLower (formatDate loc img.timestamp)) (jsToLower query)

/-- The `filteredImages` local of `updatePagination` (lines 69–75): the
images filtered by the search query when its trim is truthy, otherwise
the full list. -/
def filteredImages (loc : Locale) (s : GalleryState) : List ImageRecord :=
  if jsTrim s.searchQuery = "" then s.images
  else s.images.filter (matchesSearch loc s.searchQuery)

/-- `Math.ceil(n / m)` for natural `n` and `m`: the exact quotient when
`m` divides `n`, one more than the floor quotient otherwise. -/
def jsMathCeil (n m : Nat) : Nat :=
  if n % m = 0 then n / m else n / m + 1

/-- `updatePagination()` (lines 67–91): recompute `totalPages` from the
filtered list, reset `currentPage` to 1 when it exceeds `totalPages`,
and take the current page's slice as `displayedImages`. -/
def updatePagination (loc : Locale) (s : GalleryState) : GalleryState :=
  let filtered := filteredImages loc s
  let tp := jsMathCeil filtered.length photosPerPage
  let cp := if tp < s.currentPage then 1 else s.currentPage
  let startIndex := (cp - 1) * photosPerPage
  { s with totalPages := tp
           currentPage := cp
           displayedImages := (filtered.drop startIndex).take photosPerPage }

/-- `goToPage(page)` (lines 94–101), without the DOM scroll. -/
def goToPage (loc : Locale) (s : GalleryState) (page : Nat) : GalleryState :=
  if 1 ≤ page ∧ page ≤ s.totalPages then
    updatePagination loc { s with currentPage := page }
  else s

/-- One step of `groupImagesByMonth`'s `forEach` body (lines 129–148):
append the image to the group keyed by its month-year string, creating
the group (photos `[image]`, count 1) when the key is new. JS object
string keys keep insertion order, hence the association list. -/
def addToGroups (loc : Locale) (img : ImageRecord) :
    List (String × MonthGroup) → List (String × MonthGroup)
  | [] => [(loc.monthYearKey img.timestamp,
      { photos := [img], count := 1,
        monthName := loc.monthLong img.timestamp,
        year := loc.fullYear img.timestamp,
        sortDate := img.timestamp })]
  | (k, g) :: rest =>
    if k = loc.monthYearKey img.timestamp then
      (k, { g with photos := g.photos ++ [img], count := g.count + 1 }) :: rest
    else
      (k, g) :: addToGroups loc img rest

/-- `groupImagesByMonth()` (lines 126–151) as a function of the images
list: fold the `forEach` body over the list starting from `{}`. -/
def groupImagesByMonth (loc : Locale) (images : List ImageRecord) :
    List (String × MonthGroup) :=
  images.foldl (fun acc img => addToGroups loc img acc) []

/-- The outcome of `fetch('/api/images')` followed by `response.json()`:
`ok data` with `data = none` when the payload has no `images` field
(`data.images || []`), or `error` for a network error / invalid JSON. -/
inductive FetchResult where
  | ok (images : Option (List ImageRecord))
  | error
deriving DecidableEq

/-- The sort of line 48: `images.sort((a, b) => new Date(b.timestamp) -
new Date(a.timestamp))`, i.e. descending by timestamp. -/
def sortByTimestampDesc (l : List ImageRecord) : List ImageRecord :=
  l.mergeSort (fun a b => decide (b.timestamp ≤ a.timestamp))

/-- `loadImages()` (lines 36–64). On success: take `data.images || []`,
sort descending by timestamp, group by month, update pagination. On
failure (`catch`): clear `images` and `displayedImages`; only
`console.error` runs, so the returned list of `showNotification`
messages is empty on every path. `finally` clears `loading`. -/
def loadImages (loc : Locale) (s : GalleryState) (r : FetchResult) :
    GalleryState × List String :=
  match r with
  | .error => ({ s with images := [], displayedImages := [], loading := false }, [])
  | .ok data =>
    let sorted := sortByTimestampDesc (data.getD [])
    let s1 := { s with loading := true, images := sorted }
    let s2 := { s1 with groupedImages := groupImagesByMonth loc sorted }
    let s3 := updatePagination loc s2
    ({ s3 with loading := false }, [])

/-- One tick of `setupAutoRefresh`'s interval callback (lines 464–473):
reload, then report the number of new photos when the count grew,
`none` otherwise (`some n` stands for the new-arrivals notification). -/
def autoRefreshTick (loc : Locale) (s : GalleryState) (r : FetchResult) :
    GalleryState × Option Nat :=
  let currentCount := s.images.length
  let s' := (loadImages loc s r).1
  if currentCount < s'.images.length then
    (s', some (s'.images.length - currentCount))
  else
    (s', none)

/-- `nextImage()` (lines 215–220): advance the lightbox index unless it
is already at the last image. -/
def nextImage (s : GalleryState) : GalleryState :=
  if s.currentIndex < s.images.length - 1 then
    { s with currentIndex := s.currentIndex + 1,
             currentImage := s.images[s.currentIndex + 1]? }
  else s

/-- `prevImage()` (lines 223–228): step the lightbox index back unless it
is already 0. -/
def prevImage (s : GalleryState) : GalleryState :=
  if 0 < s.currentIndex then
    { s with currentIndex := s.currentIndex - 1,
             currentImage := s.images[s.currentIndex - 1]? }
  else s

/-- `startSlideshow()` (lines 340–357), without timer/DOM effects: a
no-op on an empty list, otherwise jump to the first image and activate. -/
def startSlideshow (s : GalleryState) : GalleryState :=
  if s.images.length = 0 then s
  else
    { s with slideshowActive := true, currentIndex := 0,
             currentImage := s.images[0]?, lightboxOpen := true }

/-- `stopSlideshow()` (lines 360–367), state part: deactivate. -/
def stopSlideshow (s : GalleryState) : GalleryState :=
  { s with slideshowActive := false }

/-- One tick of the slideshow interval callback (lines 349–354):
`nextImage()`, then stop when the index has reached the last image. -/
def slideshowTick (s : GalleryState) : GalleryState :=
  let s1 := nextImage s
  if s1.currentIndex = s1.images.length - 1 then stopSlideshow s1 else s1

/-- `togglePhotoSelection(photo)` (lines 253–260): find the first
selected entry with the photo's id; `splice` it out when present, `push`
the photo when absent. -/
def togglePhotoSelection (s : GalleryState) (photo : ImageRecord) : GalleryState :=
  match s.selectedPhotos.findIdx? (fun p => p.id == photo.id) with
  | some i => { s with selectedPhotos := s.selectedPhotos.eraseIdx i }
  | none => { s with selectedPhotos := s.selectedPhotos ++ [photo] }

/-- `isPhotoSelected(photo)` (lines 263–265): some selected entry has the
photo's id. -/
def isPhotoSelected (s : GalleryState) (photo : ImageRecord) : Bool :=
  s.selectedPhotos.any (fun p => p.id == photo.id)

/-! Concrete fixtures for witnesses and counterexamples. -/

/-- A fixed concrete locale (an `en-US` browser on dates in January 2024),
used to evaluate the embedding on concrete states. -/
def locFixed : Locale where
  localeDateString := fun _ => "1/15/2024"
  monthYearKey := fun _ => "January 2024"
  monthLong := fun _ => "January"
  fullYear := fun _ => 2024

/-! Pagination: claim C1. -/

lemma jsMathCeil_eq_ceilDiv (n : Nat) :
    jsMathCeil n photosPerPage = n ⌈/⌉ photosPerPage := by
  rw [Nat.ceilDiv_eq_add_pred_div]
  unfold jsMathCeil photosPerPage
  split <;> omega

/-- Claim C1: after `updatePagination`, `totalPages` equals the ceiling of
the (possibly search-filtered) image count divided by the fixed page size
24, and page 1 is always a valid current page: the current page is kept
when it is within range and reset to 1 whenever it exceeds `totalPages`,
in particular whenever the filtered list is empty. -/
theorem updatePagination_totalPages_ceil_and_page_valid
    (loc : Locale) (s : GalleryState) (hcp : 1 ≤ s.currentPage) :
    (updatePagination loc s).totalPages
        = (filteredImages loc s).length ⌈/⌉ photosPerPage ∧
    1 ≤ (updatePagination loc s).currentPage ∧
    (updatePagination loc s).currentPage
        ≤ max (updatePagination loc s).totalPages 1 ∧
    ((updatePagination loc s).totalPages < s.currentPage →
        (updatePagination loc s).currentPage = 1) ∧
    (s.currentPage ≤ (updatePagination loc s).totalPages →
        (updatePagination loc s).currentPage = s.currentPage) ∧
    (filteredImages loc s = [] → (updatePagination loc s).currentPage = 1) := by
  have hceil := jsMathCeil_eq_ceilDiv (filteredImages loc s).length
  have h1 : (updatePagination loc s).totalPages
      = jsMathCeil (filteredImages loc s).length photosPerPage := rfl
  have h2 : (updatePagination loc s).currentPage
      = if jsMathCeil (filteredImages loc s).length photosPerPage < s.currentPage
        then 1 else s.currentPage := rfl
  rw [h1, h2]
  by_cases h : jsMathCeil (filteredImages loc s).length photosPerPage < s.currentPage
  · rw [if_pos h]
    exact ⟨hceil, le_refl 1, le_max_right _ 1, fun _ => rfl,
      fun hle => absurd h (not_lt.mpr hle), fun _ => rfl⟩
  · rw [if_neg h]
    push_neg at h
    refine ⟨hceil, hcp, le_trans h (le_max_left _ 1),
      fun hlt => absurd hlt (not_lt.mpr h), fun _ => rfl, ?_⟩
    intro hemp
    rw [hemp] at h
    simp only [List.length_nil] at h
    have h0 : jsMathCeil 0 photosPerPage = 0 := rfl
    omega

/-- A concrete state for the C1 witness: one image, current page 3. -/
def stW1 : GalleryState :=
  { images := [⟨1, "u1", some "hello", 5⟩], currentPage := 3 }

/-- Witness for claim C1 at the concrete state `stW1`. -/
theorem updatePagination_totalPages_ceil_and_page_valid_witness :
    (updatePagination locFixed stW1).totalPages
        = (filteredImages locFixed stW1).length ⌈/⌉ photosPerPage ∧
    1 ≤ (updatePagination locFixed stW1).currentPage ∧
    (updatePagination locFixed stW1).currentPage
        ≤ max (updatePagination locFixed stW1).totalPages 1 ∧
    ((updatePagination locFixed stW1).totalPages < stW1.currentPage →
        (updatePagination locFixed stW1).currentPage = 1) ∧
    (stW1.currentPage ≤ (updatePagination locFixed stW1).totalPages →
        (updatePagination locFixed stW1).currentPage = stW1.currentPage) ∧
    (filteredImages locFixed stW1 = [] →
        (updatePagination locFixed stW1).currentPage = 1) :=
  updatePagination_totalPages_ceil_and_page_valid locFixed stW1 (by decide)

/-! Error handling of `loadImages`: claim C3. -/

/-- Claim C3, against the code: on a fetch failure `loadImages` clears
`images` and `displayedImages`, but its `catch` block only calls
`console.error`, never `showNotification`, so the list of surfaced
notifications is empty — contradicting both the claim and the code's own
comment `// Show error message to user`. -/
theorem loadImages_error_clears_without_notification
    (loc : Locale) (s : GalleryState) :
    (loadImages loc s FetchResult.error).1.images = [] ∧
    (loadImages loc s FetchResult.error).1.displayedImages = [] ∧
    (loadImages loc s FetchResult.error).2 = [] :=
  ⟨rfl, rfl, rfl⟩

/-! Auto-refresh: claim C5. -/

/-- Claim C5: the auto-refresh interval is the fixed 30 seconds, and one
poll tick surfaces the new-arrivals notification exactly when the
post-poll image count strictly exceeds the pre-poll count, the notified
number being their difference. -/
theorem autoRefreshTick_notifies_iff_count_grew
    (loc : Locale) (s : GalleryState) (r : FetchResult) (n : Nat) :
    autoRefreshIntervalMs = 30000 ∧
    ((autoRefreshTick loc s r).2 = some n ↔
      (s.images.length < ((loadImages loc s r).1).images.length ∧
        n = ((loadImages loc s r).1).images.length - s.images.length)) := by
  refine ⟨rfl, ?_⟩
  simp only [autoRefreshTick]
  by_cases h : s.images.length < ((loadImages loc s r).1).images.length
  · simp [h, eq_comm]
  · simp [h]

/-! The 25-image pagination scenario: claim C8. -/

/-- 25 images, already in descending-timestamp (sorted) order. -/
def images25 : List ImageRecord :=
  (List.range 25).map fun i => ⟨i, "", none, 1000 - i⟩

/-- The gallery state on page 2 of those 25 images, with no search. -/
def st25 : GalleryState := { images := images25, currentPage := 2 }

/-- Claim C8: with 25 images, an empty query and page size 24,
`updatePagination` yields 2 total pages, and page 2 displays exactly the
one image that is 25th in sorted order. -/
theorem pagination_25_images_page2 :
    (updatePagination locFixed st25).totalPages = 2 ∧
    (updatePagination locFixed st25).displayedImages = images25.drop 24 ∧
    images25.drop 24 = [⟨24, "", none, 976⟩] := by
  refine ⟨by decide, by decide, by decide⟩

/-! Descending timestamp sort: claim C4. -/

lemma images_updatePagination (loc : Locale) (s : GalleryState) :
    (updatePagination loc s).images = s.images := rfl

lemma images_loadImages_ok (loc : Locale) (s : GalleryState)
    (d : Option (List ImageRecord)) :
    ((loadImages loc s (FetchResult.ok d)).1).images
      = sortByTimestampDesc (d.getD []) := rfl

/-- Claim C4: after every successful `loadImages` call, the images array
is sorted descending by timestamp: each element's timestamp is at least
the next (adjacent) one's. -/
theorem loadImages_sorted_desc (loc : Locale) (s : GalleryState)
    (d : Option (List ImageRecord)) :
    List.Chain' (fun a b => b.timestamp ≤ a.timestamp)
      ((loadImages loc s (FetchResult.ok d)).1).images := by
  rw [images_loadImages_ok]
  have hs : (sortByTimestampDesc (d.getD [])).Pairwise
      (fun a b : ImageRecord => decide (b.timestamp ≤ a.timestamp) = true) := by
    apply List.sorted_mergeSort
    · intro a b c h1 h2
      simp only [decide_eq_true_eq] at *
      exact le_trans h2 h1
    · intro a b
      simp only [Bool.or_eq_true, decide_eq_true_eq]
      exact Nat.le_total b.timestamp a.timestamp
  exact (hs.imp fun h => of_decide_eq_true h).chain'

/-! Search filtering: claim C2. -/

/-- Counterexample state for C2: one image whose caption matches the
(non-trivial) query, so filtering keeps the entire list. -/
def stMatchAll : GalleryState :=
  { images := [⟨1, "u1", some "hello", 5⟩], searchQuery := "ell" }

/-- Counterexample to claim C2 as stated: with a query non-empty after
trimming that every image matches, the filtered list equals the whole
unfiltered list, so it is not a strict subset of it. -/
theorem filteredImages_not_strict_subset :
    jsTrim stMatchAll.searchQuery ≠ "" ∧
    stMatchAll.images ≠ [] ∧
    filteredImages locFixed stMatchAll = stMatchAll.images := by decide

/-- Claim C2 amended: for a query non-empty after trimming, the filtered
list is a sublist (hence a subset, though not in general a strict one) of
the unfiltered list, consisting exactly of the images whose caption or
formatted date contains the query case-insensitively; for a query empty
after trimming no filtering is applied. -/
theorem filteredImages_sublist_and_exact (loc : Locale) (s : GalleryState) :
    (jsTrim s.searchQuery ≠ "" →
      ((filteredImages loc s).Sublist s.images ∧
        ∀ img, img ∈ filteredImages loc s ↔
          (img ∈ s.images ∧ matchesSearch loc s.searchQuery img = true))) ∧
    (jsTrim s.searchQuery = "" → filteredImages loc s = s.images) := by
  constructor
  · intro h
    unfold filteredImages
    rw [if_neg h]
    exact ⟨List.filter_sublist _, fun img => List.mem_filter⟩
  · intro h
    unfold filteredImages
    rw [if_pos h]

/-! Lightbox navigation: claim C9. -/

/-- Counterexample state for C9: the index is valid but `currentImage`
is stale (holds a record other than `images[currentIndex]`), which the
claim's preconditions allow. -/
def stStale : GalleryState :=
  { images := [⟨1, "u1", none, 5⟩], currentIndex := 0,
    currentImage := some ⟨2, "u2", none, 6⟩ }

/-- Counterexample to claim C9 as stated: at the last index `nextImage`
leaves the stale `currentImage` unchanged, so afterwards `currentImage`
differs from `images[currentIndex]`, although the images list is
non-empty and the index is in bounds as the claim requires. -/
theorem nextImage_stale_currentImage :
    stStale.images ≠ [] ∧
    stStale.currentIndex < stStale.images.length ∧
    (nextImage stStale).currentImage
      ≠ (nextImage stStale).images[(nextImage stStale).currentIndex]? := by
  decide

/-- Claim C9 amended: assuming additionally that `currentImage` equals
`images[currentIndex]` beforehand, `nextImage` and `prevImage` keep the
index strictly below `images.length` and keep `currentImage` equal to
`images[currentIndex]`; at the last index `nextImage` changes nothing and
at index 0 `prevImage` changes nothing. -/
theorem nextImage_prevImage_preserve (s : GalleryState)
    (hidx : s.currentIndex < s.images.length)
    (hcur : s.currentImage = s.images[s.currentIndex]?) :
    (nextImage s).currentIndex < (nextImage s).images.length ∧
    (nextImage s).currentImage
      = (nextImage s).images[(nextImage s).currentIndex]? ∧
    (prevImage s).currentIndex < (prevImage s).images.length ∧
    (prevImage s).currentImage
      = (prevImage s).images[(prevImage s).currentIndex]? ∧
    (s.currentIndex = s.images.length - 1 → nextImage s = s) ∧
    (s.currentIndex = 0 → prevImage s = s) := by
  unfold nextImage prevImage
  by_cases h1 : s.currentIndex < s.images.length - 1
  · by_cases h0 : 0 < s.currentIndex
    · rw [if_pos h1, if_pos h0]
      exact ⟨by simp; omega, by simp, by simp; omega, by simp,
        fun hlast => absurd hlast (by omega), fun hz => absurd hz (by omega)⟩
    · rw [if_pos h1, if_neg h0]
      exact ⟨by simp; omega, by simp, hidx, hcur,
        fun hlast => absurd hlast (by omega), fun _ => rfl⟩
  · by_cases h0 : 0 < s.currentIndex
    · rw [if_neg h1, if_pos h0]
      exact ⟨hidx, hcur, by simp; omega, by simp,
        fun _ => rfl, fun hz => absurd hz (by omega)⟩
    · rw [if_neg h1, if_neg h0]
      exact ⟨hidx, hcur, hidx, hcur, fun _ => rfl, fun _ => rfl⟩

/-- A concrete consistent state for the C9 witness: two images, lightbox
on the first. -/
def stNav : GalleryState :=
  { images := [⟨1, "u1", none, 5⟩, ⟨2, "u2", none, 4⟩], currentIndex := 0,
    currentImage := some ⟨1, "u1", none, 5⟩ }

/-- Witness for the amended claim C9 at the concrete state `stNav`. -/
theorem nextImage_prevImage_preserve_witness :
    (nextImage stNav).currentIndex < (nextImage stNav).images.length ∧
    (nextImage stNav).currentImage
      = (nextImage stNav).images[(nextImage stNav).currentIndex]? ∧
    (prevImage stNav).currentIndex < (prevImage stNav).images.length ∧
    (prevImage stNav).currentImage
      = (prevImage stNav).images[(prevImage stNav).currentIndex]? ∧
    (stNav.currentIndex = stNav.images.length - 1 → nextImage stNav = stNav) ∧
    (stNav.currentIndex = 0 → prevImage stNav = stNav) :=
  nextImage_prevImage_preserve stNav (by decide) (by decide)

/-! Slideshow: claim C6. -/

/-- Counterexample state for C6: the slideshow has just been started on a
single-image gallery (so the state is reachable), index 0, active. -/
def stSingle : GalleryState := startSlideshow { images := [⟨3, "u3", none, 7⟩] }

/-- Counterexample to claim C6 as stated: with a single image, the first
tick of the active slideshow does not advance `currentIndex` by one
(`nextImage` is a no-op at the last index). -/
theorem slideshowTick_single_image_no_advance :
    stSingle.slideshowActive = true ∧
    stSingle.images.length = 1 ∧
    stSingle.currentIndex = 0 ∧
    (slideshowTick stSingle).currentIndex ≠ stSingle.currentIndex + 1 := by
  decide

/-- Claim C6 amended: starting a slideshow on an empty images list leaves
the state unchanged; during an active slideshow with an in-bounds index,
a tick sets `currentIndex` to `min (currentIndex + 1) (images.length - 1)`
— advancing by exactly one except when already at the last index, as
happens on the first tick over a single image — never exceeding
`images.length - 1`, and the slideshow deactivates exactly when the index
has reached the last image. -/
theorem slideshow_tick_bounds_and_stop :
    (∀ s : GalleryState, s.images = [] → startSlideshow s = s) ∧
    (∀ s : GalleryState, s.slideshowActive = true →
      s.currentIndex < s.images.length →
      ((slideshowTick s).currentIndex
          = min (s.currentIndex + 1) (s.images.length - 1) ∧
        (slideshowTick s).currentIndex ≤ s.images.length - 1 ∧
        ((slideshowTick s).slideshowActive = false ↔
          (slideshowTick s).currentIndex = s.images.length - 1))) := by
  constructor
  · intro s h
    unfold startSlideshow
    rw [if_pos (by rw [h]; rfl)]
  · intro s hact hlt
    unfold slideshowTick nextImage stopSlideshow
    by_cases h1 : s.currentIndex < s.images.length - 1
    · rw [if_pos h1]
      by_cases h2 : s.currentIndex + 1 = s.images.length - 1
      · rw [if_pos (by simpa using h2)]
        refine ⟨by simp; omega, by simp; omega, ?_⟩
        simp only []
        constructor
        · intro _; simpa using h2
        · intro _; trivial
      · rw [if_neg (by simpa using h2)]
        refine ⟨by simp; omega, by simp; omega, ?_⟩
        constructor
        · intro hfalse
          simp only [] at hfalse
          rw [hact] at hfalse
          exact absurd hfalse (by simp)
        · intro heq
          exact absurd (by simpa using heq) h2
    · have hlast : s.currentIndex = s.images.length - 1 := by omega
      rw [if_neg h1, if_pos (by simpa using hlast)]
      exact ⟨by simp; omega, by simp; omega, by simp [hlast]⟩

/-! Photo selection: claim C10. -/

/-- The list-level effect of `togglePhotoSelection`: drop the first entry
carrying the photo's id (`findIndex` + `splice(index, 1)`), or append the
photo (`push`) when no entry does. -/
def toggleSel (photo : ImageRecord) : List ImageRecord → List ImageRecord
  | [] => [photo]
  | p :: rest => if p.id == photo.id then rest else p :: toggleSel photo rest

lemma findIdx_spliceOrPush_eq_toggleSel (photo : ImageRecord)
    (l : List ImageRecord) :
    (match l.findIdx? (fun p => p.id == photo.id) with
      | some i => l.eraseIdx i
      | none => l ++ [photo]) = toggleSel photo l := by
  induction l with
  | nil => rfl
  | cons p rest ih =>
    by_cases hp : (p.id == photo.id) = true
    · simp [List.findIdx?_cons, hp, toggleSel]
    · have hb : (p.id == photo.id) = false := by simpa using hp
      cases hfind : rest.findIdx? (fun q => q.id == photo.id) with
      | none =>
        rw [hfind] at ih
        have ih' : rest ++ [photo] = toggleSel photo rest := ih
        simp [List.findIdx?_cons, hb, List.findIdx?_succ, hfind, toggleSel, ih']
      | some i =>
        rw [hfind] at ih
        have ih' : rest.eraseIdx i = toggleSel photo rest := ih
        simp [List.findIdx?_cons, hb, List.findIdx?_succ, hfind, toggleSel, ih']

lemma togglePhotoSelection_eq (s : GalleryState) (photo : ImageRecord) :
    togglePhotoSelection s photo
      = { s with selectedPhotos := toggleSel photo s.selectedPhotos } := by
  have hl := findIdx_spliceOrPush_eq_toggleSel photo s.selectedPhotos
  unfold togglePhotoSelection
  cases hfind : s.selectedPhotos.findIdx? (fun p => p.id == photo.id) with
  | none =>
    rw [hfind] at hl
    have hl' : s.selectedPhotos ++ [photo] = toggleSel photo s.selectedPhotos := hl
    show ({ s with selectedPhotos := s.selectedPhotos ++ [photo] } : GalleryState)
        = { s with selectedPhotos := toggleSel photo s.selectedPhotos }
    rw [hl']
  | some i =>
    rw [hfind] at hl
    have hl' : s.selectedPhotos.eraseIdx i = toggleSel photo s.selectedPhotos := hl
    show ({ s with selectedPhotos := s.selectedPhotos.eraseIdx i } : GalleryState)
        = { s with selectedPhotos := toggleSel photo s.selectedPhotos }
    rw [hl']

lemma any_eq_false_iff_countP_eq_zero (q : ImageRecord → Bool)
    (l : List ImageRecord) : l.any q = false ↔ l.countP q = 0 := by
  simp [List.any_eq_false, List.countP_eq_zero]

lemma toggleSel_of_any_false (photo : ImageRecord) (l : List ImageRecord)
    (h : l.any (fun p => p.id == photo.id) = false) :
    toggleSel photo l = l ++ [photo] := by
  induction l with
  | nil => rfl
  | cons p rest ih =>
    simp only [List.any_cons, Bool.or_eq_false_iff] at h
    unfold toggleSel
    simp [h.1, ih h.2]

lemma countP_toggleSel_of_any_true (photo : ImageRecord) (l : List ImageRecord)
    (h : l.any (fun p => p.id == photo.id) = true) :
    (toggleSel photo l).countP (fun p => p.id == photo.id) + 1
      = l.countP (fun p => p.id == photo.id) := by
  induction l with
  | nil => simp at h
  | cons p rest ih =>
    unfold toggleSel
    by_cases hp : (p.id == photo.id) = true
    · simp [hp, List.countP_cons]
    · have hb : (p.id == photo.id) = false := by simpa using hp
      have h2 : rest.any (fun q => q.id == photo.id) = true := by
        simpa [List.any_cons, hb] using h
      simp only [hb, Bool.false_eq_true, if_false, List.countP_cons]
      simp [hb, ih h2]

lemma any_toggleSel_of_any_true (photo : ImageRecord) (l : List ImageRecord)
    (hcount : l.countP (fun p => p.id == photo.id) ≤ 1)
    (h : l.any (fun p => p.id == photo.id) = true) :
    (toggleSel photo l).any (fun p => p.id == photo.id) = false := by
  rw [any_eq_false_iff_countP_eq_zero]
  have := countP_toggleSel_of_any_true photo l h
  omega

lemma any_toggleSel_of_any_false (photo : ImageRecord) (l : List ImageRecord)
    (h : l.any (fun p => p.id == photo.id) = false) :
    (toggleSel photo l).any (fun p => p.id == photo.id) = true := by
  rw [toggleSel_of_any_false photo l h]
  simp

lemma countP_toggleSel_of_any_false (photo : ImageRecord) (l : List ImageRecord)
    (h : l.any (fun p => p.id == photo.id) = false) :
    (toggleSel photo l).countP (fun p => p.id == photo.id)
      = l.countP (fun p => p.id == photo.id) + 1 := by
  rw [toggleSel_of_any_false photo l h]
  simp [List.countP_append, List.countP_cons]

/-- Claim C10 amended: for selection states in which at most one entry
carries the photo's id (as in every state the selection operations
produce), one `togglePhotoSelection` call negates `isPhotoSelected`, and
two calls restore the photo's original selection membership. -/
theorem togglePhotoSelection_involution (s : GalleryState)
    (photo : ImageRecord)
    (h : s.selectedPhotos.countP (fun p => p.id == photo.id) ≤ 1) :
    isPhotoSelected (togglePhotoSelection s photo) photo
        = !(isPhotoSelected s photo) ∧
    isPhotoSelected
        (togglePhotoSelection (togglePhotoSelection s photo) photo) photo
      = isPhotoSelected s photo := by
  rw [togglePhotoSelection_eq s photo, togglePhotoSelection_eq _ photo]
  unfold isPhotoSelected
  simp only
  cases hany : s.selectedPhotos.any (fun p => p.id == photo.id) with
  | true =>
    have g1 := any_toggleSel_of_any_true photo s.selectedPhotos h hany
    refine ⟨by rw [g1]; rfl, ?_⟩
    rw [any_toggleSel_of_any_false photo _ g1]
  | false =>
    have g1 := any_toggleSel_of_any_false photo s.selectedPhotos hany
    refine ⟨by rw [g1]; rfl, ?_⟩
    have hc0 : s.selectedPhotos.countP (fun p => p.id == photo.id) = 0 :=
      (any_eq_false_iff_countP_eq_zero _ _).mp hany
    have hc1 : (toggleSel photo s.selectedPhotos).countP
        (fun p => p.id == photo.id) ≤ 1 := by
      rw [countP_toggleSel_of_any_false photo _ hany]
      omega
    rw [any_toggleSel_of_any_true photo _ hc1 g1]

/-- The photo and selection state of the C10 counterexample: the same
photo selected twice (the claim quantifies over every selection state). -/
def photoDup : ImageRecord := ⟨7, "u7", none, 9⟩

/-- Selection state holding `photoDup` twice. -/
def stDup : GalleryState := { selectedPhotos := [photoDup, photoDup] }

/-- Counterexample to claim C10 as stated: with the photo selected twice,
one toggle removes only the first occurrence, so `isPhotoSelected` stays
`true` instead of flipping to the negation of its previous value. -/
theorem togglePhotoSelection_duplicate_not_negated :
    isPhotoSelected stDup photoDup = true ∧
    isPhotoSelected (togglePhotoSelection stDup photoDup) photoDup = true := by
  decide

/-- A concrete duplicate-free selection state for the C10 witness. -/
def stSel : GalleryState := { selectedPhotos := [photoDup] }

/-- Witness for the amended claim C10 at the concrete state `stSel`. -/
theorem togglePhotoSelection_involution_witness :
    isPhotoSelected (togglePhotoSelection stSel photoDup) photoDup
        = !(isPhotoSelected stSel photoDup) ∧
    isPhotoSelected
        (togglePhotoSelection (togglePhotoSelection stSel photoDup) photoDup)
        photoDup
      = isPhotoSelected stSel photoDup :=
  togglePhotoSelection_involution stSel photoDup (by decide)

/-! Month grouping: claim C7. -/

lemma addToGroups_count_eq_length (loc : Locale) (img : ImageRecord)
    (g : List (String × MonthGroup))
    (h : ∀ e ∈ g, (e.2).count = (e.2).photos.length) :
    ∀ e ∈ addToGroups loc img g, (e.2).count = (e.2).photos.length := by
  induction g with
  | nil =>
    intro e he
    simp only [addToGroups, List.mem_singleton] at he
    simp [he]
  | cons hd tl ih =>
    obtain ⟨k, gr⟩ := hd
    intro e he
    unfold addToGroups at he
    by_cases hk : k = loc.monthYearKey img.timestamp
    · rw [if_pos hk] at he
      rcases List.mem_cons.mp he with he1 | he2
      · have hhd := h (k, gr) (List.mem_cons_self _ _)
        simp only at hhd
        simp [he1, hhd]
      · exact h e (List.mem_cons_of_mem _ he2)
    · rw [if_neg hk] at he
      rcases List.mem_cons.mp he with he1 | he2
      · rw [he1]
        exact h (k, gr) (List.mem_cons_self _ _)
      · exact ih (fun e' he' => h e' (List.mem_cons_of_mem _ he')) e he2

lemma addToGroups_keys (loc : Locale) (img : ImageRecord)
    (g : List (String × MonthGroup)) :
    (addToGroups loc img g).map Prod.fst
      = if loc.monthYearKey img.timestamp ∈ g.map Prod.fst
        then g.map Prod.fst
        else g.map Prod.fst ++ [loc.monthYearKey img.timestamp] := by
  induction g with
  | nil => simp [addToGroups]
  | cons hd tl ih =>
    obtain ⟨k, gr⟩ := hd
    unfold addToGroups
    by_cases hk : k = loc.monthYearKey img.timestamp
    · rw [if_pos hk]
      simp [hk]
    · rw [if_neg hk]
      have hk' : ¬ loc.monthYearKey img.timestamp = k := fun h => hk h.symm
      by_cases hmem : loc.monthYearKey img.timestamp ∈ tl.map Prod.fst
      · simp [hmem, hk', ih]
      · simp [hmem, hk', ih]

lemma addToGroups_keys_nodup (loc : Locale) (img : ImageRecord)
    (g : List (String × MonthGroup)) (h : (g.map Prod.fst).Nodup) :
    ((addToGroups loc img g).map Prod.fst).Nodup := by
  rw [addToGroups_keys]
  by_cases hmem : loc.monthYearKey img.timestamp ∈ g.map Prod.fst
  · rw [if_pos hmem]
    exact h
  · rw [if_neg hmem]
    simp [List.nodup_append, h, hmem]

lemma addToGroups_keyed (loc : Locale) (img : ImageRecord)
    (g : List (String × MonthGroup))
    (h : ∀ e ∈ g, ∀ x ∈ (e.2).photos, loc.monthYearKey x.timestamp = e.1) :
    ∀ e ∈ addToGroups loc img g, ∀ x ∈ (e.2).photos,
      loc.monthYearKey x.timestamp = e.1 := by
  induction g with
  | nil =>
    intro e he x hx
    simp only [addToGroups, List.mem_singleton] at he
    rw [he] at hx ⊢
    simp only [List.mem_singleton] at hx
    rw [hx]
  | cons hd tl ih =>
    obtain ⟨k, gr⟩ := hd
    intro e he x hx
    unfold addToGroups at he
    by_cases hk : k = loc.monthYearKey img.timestamp
    · rw [if_pos hk] at he
      rcases List.mem_cons.mp he with he1 | he2
      · rw [he1] at hx ⊢
        simp only [List.mem_append, List.mem_singleton] at hx
        rcases hx with hx1 | hx2
        · exact h (k, gr) (List.mem_cons_self _ _) x hx1
        · rw [hx2, ← hk]
      · exact h e (List.mem_cons_of_mem _ he2) x hx
    · rw [if_neg hk] at he
      rcases List.mem_cons.mp he with he1 | he2
      · rw [he1] at hx ⊢
        exact h (k, gr) (List.mem_cons_self _ _) x hx
      · exact ih (fun e' he' => h e' (List.mem_cons_of_mem _ he')) e he2 x hx

lemma addToGroups_flatten_perm (loc : Locale) (img : ImageRecord)
    (g : List (String × MonthGroup)) :
    ((addToGroups loc img g).map (fun e => (e.2).photos)).flatten.Perm
      ((g.map (fun e => (e.2).photos)).flatten ++ [img]) := by
  induction g with
  | nil => simp [addToGroups]
  | cons hd tl ih =>
    obtain ⟨k, gr⟩ := hd
    unfold addToGroups
    by_cases hk : k = loc.monthYearKey img.timestamp
    · rw [if_pos hk]
      simp only [List.map_cons, List.flatten_cons]
      rw [List.append_assoc, List.append_assoc]
      exact List.Perm.append_left _ List.perm_append_comm
    · rw [if_neg hk]
      simp only [List.map_cons, List.flatten_cons]
      refine (List.Perm.append_left _ ih).trans ?_
      rw [List.append_assoc]

lemma foldl_groups_count (loc : Locale) (images : List ImageRecord) :
    ∀ g, (∀ e ∈ g, (e.2).count = (e.2).photos.length) →
      ∀ e ∈ images.foldl (fun acc img => addToGroups loc img acc) g,
        (e.2).count = (e.2).photos.length := by
  induction images with
  | nil => intro g hg; simpa using hg
  | cons img rest ih =>
    intro g hg
    simp only [List.foldl_cons]
    exact ih _ (addToGroups_count_eq_length loc img g hg)

lemma foldl_groups_nodup (loc : Locale) (images : List ImageRecord) :
    ∀ g, (g.map Prod.fst).Nodup →
      (((images.foldl (fun acc img => addToGroups loc img acc) g).map
        Prod.fst)).Nodup := by
  induction images with
  | nil => intro g hg; simpa using hg
  | cons img rest ih =>
    intro g hg
    simp only [List.foldl_cons]
    exact ih _ (addToGroups_keys_nodup loc img g hg)

lemma foldl_groups_keyed (loc : Locale) (images : List ImageRecord) :
    ∀ g, (∀ e ∈ g, ∀ x ∈ (e.2).photos, loc.monthYearKey x.timestamp = e.1) →
      ∀ e ∈ images.foldl (fun acc img => addToGroups loc img acc) g,
        ∀ x ∈ (e.2).photos, loc.monthYearKey x.timestamp = e.1 := by
  induction images with
  | nil => intro g hg; simpa using hg
  | cons img rest ih =>
    intro g hg
    simp only [List.foldl_cons]
    exact ih _ (addToGroups_keyed loc img g hg)

lemma foldl_groups_flatten_perm (loc : Locale) (images : List ImageRecord) :
    ∀ g, ((images.foldl (fun acc img => addToGroups loc img acc) g).map
        (fun e => (e.2).photos)).flatten.Perm
      ((g.map (fun e => (e.2).photos)).flatten ++ images) := by
  induction images with
  | nil => intro g; simp
  | cons img rest ih =>
    intro g
    simp only [List.foldl_cons]
    refine (ih (addToGroups loc img g)).trans ?_
    have h1 := (addToGroups_flatten_perm loc img g).append_right rest
    refine h1.trans ?_
    rw [List.append_assoc]
    exact List.Perm.refl _

/-- Claim C7: `groupImagesByMonth` partitions the images by calendar
month: each group's `count` equals the length of its `photos`, the month
keys are pairwise distinct and every photo in a group carries that
group's month key (so each image lies in exactly one group), the groups'
photos together are a permutation of the input list, and the group
counts sum to the total number of images. -/
theorem groupImagesByMonth_partition (loc : Locale)
    (images : List ImageRecord) :
    (∀ e ∈ groupImagesByMonth loc images, (e.2).count = (e.2).photos.length) ∧
    ((groupImagesByMonth loc images).map Prod.fst).Nodup ∧
    (∀ e ∈ groupImagesByMonth loc images, ∀ x ∈ (e.2).photos,
      loc.monthYearKey x.timestamp = e.1) ∧
    ((groupImagesByMonth loc images).map (fun e => (e.2).photos)).flatten.Perm
      images ∧
    ((groupImagesByMonth loc images).map (fun e => (e.2).count)).sum
      = images.length := by
  have hcount := foldl_groups_count loc images [] (by simp)
  have hnodup := foldl_groups_nodup loc images [] (by simp)
  have hkeyed := foldl_groups_keyed loc images [] (by simp)
  have hperm : ((groupImagesByMonth loc images).map
      (fun e => (e.2).photos)).flatten.Perm images := by
    have := foldl_groups_flatten_perm loc images []
    simpa [groupImagesByMonth] using this
  refine ⟨hcount, hnodup, hkeyed, hperm, ?_⟩
  have hmap : (groupImagesByMonth loc images).map (fun e => (e.2).count)
      = (groupImagesByMonth loc images).map (fun e => (e.2).photos.length) :=
    List.map_congr_left (fun e he => hcount e he)
  rw [hmap]
  have hlen : (groupImagesByMonth loc images).map
        (fun e => (e.2).photos.length)
      = ((groupImagesByMonth loc images).map
          (fun e => (e.2).photos)).map List.length := by
    rw [List.map_map]
    rfl
  rw [hlen, ← List.length_flatten]
  exact hperm.length_eq

end Gallery
